import Mathlib

/-!
Verification of the segy repository's natural-language specification.

This file shallowly embeds the parts of the code base that the frozen
claims are about:

* `src/segy/indexing.py` — indexers, byte-range planning, bounds checks,
  slice handling, IBM-to-IEEE in-place trace conversion;
* `src/segy/standards/rev0.py` — the Rev0 descriptor tables;
* `src/segy/standards/registry.py` — the standards registry.

Machine integers are modelled as `Nat`/`Int` with explicit `% 2^w` where
overflow matters; fallible Python code returns `Option`/`Except`.
Functions whose source is not part of the repository snapshot
(`segy.ibm.ibm2ieee`, numpy dtype semantics, pydantic `model_copy`,
`fsspec.utils.merge_offset_ranges`) are modelled from the specification
text; each of those definitions carries a doc comment saying so.
-/

namespace SegyVerify

/-! ### Scalar catalog (spec §3, modelled from `segy.schema` which is
absent from the source snapshot) -/

/-- Modelled from the spec: `ScalarType` enumeration of fixed-width
primitive encodings (spec §3); the source module `segy/schema` is not in
the snapshot, only its users are. -/
inductive ScalarType where
  | int8 | uint8 | int16 | uint16 | int32 | uint32
  | int64 | uint64 | float32 | float64 | ibm32
deriving DecidableEq, Repr

/-- Modelled from the spec: width in bytes of each scalar type
(spec §3 and §4.1); `ibm32` has width 4. -/
def ScalarType.width : ScalarType → Nat
  | .int8 => 1 | .uint8 => 1
  | .int16 => 2 | .uint16 => 2
  | .int32 => 4 | .uint32 => 4
  | .int64 => 8 | .uint64 => 8
  | .float32 => 4 | .float64 => 8
  | .ibm32 => 4

/-- Modelled from the spec: byte-order tag (spec §3). -/
inductive Endianness where
  | big | little | native
deriving DecidableEq, Repr

/-! ### IBM32 → IEEE754 conversion

The repository calls `segy.ibm.ibm2ieee`, whose module is not in the
source snapshot.  The conversion is modelled from spec §4.1, which gives
the exact algorithm: split the word into sign / excess-64 base-16
exponent / 24-bit fraction, return ±0 for a zero fraction, and otherwise
assemble the IEEE binary32 bit pattern directly from the highest set bit
of the fraction, saturating to ±inf above range and to ±0 below. -/

/-- Sign bit (bit 31) of a 32-bit word. -/
def ibmSign (w : Nat) : Nat := w / 2 ^ 31 % 2

/-- Excess-64 base-16 exponent: bits 24-30 of a 32-bit word. -/
def ibmExponent (w : Nat) : Nat := w / 2 ^ 24 % 2 ^ 7

/-- 24-bit fraction: bits 0-23 of a 32-bit word. -/
def ibmFraction (w : Nat) : Nat := w % 2 ^ 24

/-- Position of the highest set bit of a 24-bit value (0 when the value
is 0); scans the 24 candidate bit positions. -/
def hiBit (f : Nat) : Nat :=
  (List.range 24).foldl (fun acc b => if f / 2 ^ b % 2 = 1 then b else acc) 0

/-- Modelled from the spec: `ibm2ieee` (spec §4.1), producing the IEEE-754
binary32 bit pattern for a 32-bit IBM hexadecimal float word.  The IEEE
exponent is `(exponent - 64) * 4 - (24 - (hi_bit + 1)) + 127 - 1`; zero
fraction gives ±0, overflow saturates to ±inf, underflow to ±0. -/
def ibm2ieee (w : Nat) : Nat :=
  let sign := ibmSign w
  let frac := ibmFraction w
  if frac = 0 then sign * 2 ^ 31
  else
    let hi := hiBit frac
    let e : Int := ((ibmExponent w : Int) - 64) * 4 - (24 - ((hi : Int) + 1)) + 127 - 1
    if 255 ≤ e then sign * 2 ^ 31 + 255 * 2 ^ 23
    else if e ≤ 0 then sign * 2 ^ 31
    else sign * 2 ^ 31 + e.toNat * 2 ^ 23 + frac * 2 ^ (23 - hi) % 2 ^ 23

/-- Mathematical value of a finite IEEE-754 binary32 bit pattern
(normal or subnormal; exponent field 255 encodes ±inf/NaN and is not
interpreted by the claims below). -/
def ieee32Value (bits : Nat) : ℚ :=
  let s : Nat := bits / 2 ^ 31 % 2
  let e : Nat := bits / 2 ^ 23 % 2 ^ 8
  let m : Nat := bits % 2 ^ 23
  let mag : ℚ :=
    if e = 0 then (m : ℚ) / ((2 : ℚ) ^ 23 * 2 ^ 126)
    else ((2 ^ 23 + m : Nat) : ℚ) * 2 ^ e / ((2 : ℚ) ^ 23 * 2 ^ 127)
  if s = 1 then -mag else mag

/-! ### Descriptor model

Embeds the descriptor data model used by `src/segy/standards/rev0.py` and
`src/segy/schema/segy.py`.  The `segy.schema.data_type` /
`segy.schema.header` / `segy.schema.trace` modules are not in the source
snapshot; their record shapes are modelled from the constructor calls in
`rev0.py` and from spec §3. -/

/-- Modelled from the spec and the constructor calls in `rev0.py`:
`StructuredFieldDescriptor(name, offset, format, endianness, description)`. -/
structure StructuredFieldDescriptor where
  name : String
  offset : Nat
  format : ScalarType
  endianness : Endianness
  description : String
deriving DecidableEq, Repr

/-- Shorthand constructor used to transcribe the Rev0 field tables. -/
def fld (name : String) (offset : Nat) (format : ScalarType)
    (endianness : Endianness) (description : String) : StructuredFieldDescriptor :=
  ⟨name, offset, format, endianness, description⟩

/-- Modelled from the spec and the constructor calls in `rev0.py`:
`StructuredDataTypeDescriptor(fields, item_size, offset?)` (spec §3). -/
structure StructuredDataTypeDescriptor where
  fields : List StructuredFieldDescriptor
  itemSize : Nat
  offset : Option Nat := none
deriving DecidableEq, Repr

/-- Modelled from the spec: text header encodings (spec §3). -/
inductive TextHeaderEncoding where
  | ebcdic | ascii
deriving DecidableEq, Repr

/-- Modelled from the spec and the constructor call in `rev0.py`:
`TextHeaderDescriptor(rows, cols, offset, encoding, format)` (spec §3). -/
structure TextHeaderDescriptor where
  rows : Nat
  cols : Nat
  offset : Nat
  encoding : TextHeaderEncoding
  format : ScalarType
deriving DecidableEq, Repr

/-- Modelled from the spec and the constructor call in `rev0.py`:
`TraceDataDescriptor(format, endianness, samples)`; the sample count is
filled in when a file is opened (spec §3, §4.6). -/
structure TraceDataDescriptor where
  format : ScalarType
  endianness : Endianness
  samples : Nat := 0
deriving DecidableEq, Repr

/-- Modelled from the spec: derived byte width of the trace data block,
`samples * width(format)` (spec §3). -/
def TraceDataDescriptor.itemSize (d : TraceDataDescriptor) : Nat :=
  d.samples * d.format.width

/-- Modelled from the spec and the constructor call in `rev0.py`:
`TraceDescriptor(header_descriptor, data_descriptor, offset)`; offset is
the trace section's base offset in the file. -/
structure TraceDescriptor where
  headerDescriptor : StructuredDataTypeDescriptor
  dataDescriptor : TraceDataDescriptor
  offset : Nat := 0
deriving DecidableEq, Repr

/-- Modelled from the spec: the compiled trace record is the header block
followed by the data block, so `dtype.itemsize = header.item_size +
samples * width(format)` (spec §3, entity `TraceDescriptor`). -/
def TraceDescriptor.dtypeItemsize (td : TraceDescriptor) : Nat :=
  td.headerDescriptor.itemSize + td.dataDescriptor.itemSize

/-- SEG-Y standards enumeration from `src/segy/schema/segy.py`
(`REV0 = 0`, `REV1 = 1`, `REV2 = 2`, `REV21 = 2.1`, `CUSTOM = "custom"`). -/
inductive SegyStandard where
  | rev0 | rev1 | rev2 | rev21 | custom
deriving DecidableEq, Repr

/-- `SegyDescriptor` from `src/segy/schema/segy.py`: standard tag, text
file header, binary file header, optional extended text header, trace. -/
structure SegyDescriptor where
  segyStandard : SegyStandard
  textFileHeader : TextHeaderDescriptor
  binaryFileHeader : StructuredDataTypeDescriptor
  extendedTextHeader : Option TextHeaderDescriptor := none
  trace : TraceDescriptor
deriving DecidableEq, Repr

/-! ### Rev0 standard tables, transcribed from `src/segy/standards/rev0.py` -/

/-- `BINARY_FILE_HEADER_FIELDS_REV0` from `rev0.py` (lines 14-204). -/
def BINARY_FILE_HEADER_FIELDS_REV0 : List StructuredFieldDescriptor := [
  fld "job_id" 0 .int32 .big "Job Identification Number",
  fld "line_no" 4 .int32 .big "Line Number",
  fld "reel_no" 8 .int32 .big "Reel Number",
  fld "data_traces_ensemble" 12 .int16 .big "Number of Data Traces per Ensemble",
  fld "aux_traces_ensemble" 14 .int16 .big "Number of Auxiliary Traces per Ensemble",
  fld "sample_interval" 16 .int16 .big "Sample Interval",
  fld "sample_interval_orig" 18 .int16 .big "Sample Interval of Original Field Recording",
  fld "samples_per_trace" 20 .int16 .big "Number of Samples per Data Trace",
  fld "samples_per_trace_orig" 22 .int16 .big "Number of Samples per Data Trace for Original Field Recording",
  fld "data_sample_format" 24 .int16 .big "Data Sample Format Code",
  fld "ensemble_fold" 26 .int16 .big "Ensemble Fold",
  fld "trace_sorting" 28 .int16 .big "Trace Sorting Code",
  fld "vertical_sum" 30 .int16 .big "Vertical Sum Code",
  fld "sweep_freq_start" 32 .int16 .big "Sweep Frequency at Start",
  fld "sweep_freq_end" 34 .int16 .big "Sweep Frequency at End",
  fld "sweep_length" 36 .int16 .big "Sweep Length",
  fld "sweep_type" 38 .int16 .big "Sweep Type Code",
  fld "sweep_trace_no" 40 .int16 .big "Trace Number of Sweep Channel",
  fld "sweep_taper_start" 42 .int16 .big "Sweep Trace Taper Length at Start",
  fld "sweep_taper_end" 44 .int16 .big "Sweep Trace Taper Length at End",
  fld "taper_type" 46 .int16 .big "Taper Type",
  fld "correlated_traces" 48 .int16 .big "Correlated Data Traces",
  fld "binary_gain" 50 .int16 .big "Binary Gain Recovered",
  fld "amp_recovery_method" 52 .int16 .big "Amplitude Recovery Method",
  fld "measurement_system" 54 .int16 .big "Measurement System",
  fld "impulse_signal_polarity" 56 .int16 .big "Impulse Signal Polarity",
  fld "vibratory_polarity" 58 .int16 .big "Vibratory Polarity Code"
]

/-- `TRACE_HEADER_FIELDS_REV0` from `rev0.py` (lines 207-705). -/
def TRACE_HEADER_FIELDS_REV0 : List StructuredFieldDescriptor := [
  fld "trace_seq_line" 0 .int32 .big "Trace Sequence Number within Line",
  fld "trace_seq_file" 4 .int32 .big "Trace Sequence Number within File",
  fld "field_rec_no" 8 .int32 .big "Original Field Record Number",
  fld "trace_no_field_rec" 12 .int32 .big "Trace Number within the Field Record",
  fld "energy_src_pt" 16 .int32 .big "Energy Source Point Number",
  fld "cdp_ens_no" 20 .int32 .big "Ensemble Number (CDP, CMP, etc.)",
  fld "trace_no_ens" 24 .int32 .big "Trace Number within the Ensemble",
  fld "trace_id" 28 .int16 .big "Trace Identification Code",
  fld "vert_sum" 30 .int16 .big "Number of Vertically Stacked Traces",
  fld "horiz_stack" 32 .int16 .big "Number of Horizontally Stacked Traces",
  fld "data_use" 34 .int16 .big "Data Use",
  fld "dist_src_to_rec" 36 .int32 .big "Distance from Source Point to Receiver Group",
  fld "rec_elev" 40 .int32 .big "Receiver Group Elevation",
  fld "src_elev" 44 .int32 .big "Source Elevation",
  fld "src_depth" 48 .int32 .big "Source Depth",
  fld "datum_elev_rec" 52 .int32 .big "Datum Elevation at Receiver Group",
  fld "datum_elev_src" 56 .int32 .big "Datum Elevation at Source",
  fld "water_depth_src" 60 .int32 .big "Water Depth at Source",
  fld "water_depth_rec" 64 .int32 .big "Water Depth at Receiver Group",
  fld "scalar_apply_elev" 68 .int16 .big "Scalar to be applied to all elevations and depths",
  fld "scalar_apply_coords" 70 .int16 .big "Scalar to be applied to all coordinates",
  fld "src_x" 72 .int32 .big "Source X coordinate",
  fld "src_y" 76 .int32 .big "Source Y coordinate",
  fld "rec_x" 80 .int32 .big "Receiver X coordinate",
  fld "rec_y" 84 .int32 .big "Receiver Y coordinate",
  fld "coord_units" 88 .int16 .big "Coordinate units",
  fld "weathering_vel" 90 .int16 .big "Weathering Velocity",
  fld "subweathering_vel" 92 .int16 .big "Subweathering Velocity",
  fld "uphole_time_src" 94 .int16 .big "Uphole Time at Source",
  fld "uphole_time_rec" 96 .int16 .big "Uphole Time at Receiver",
  fld "src_static_corr" 98 .int16 .big "Source Static Correction",
  fld "rec_static_corr" 100 .int16 .big "Receiver Static Correction",
  fld "total_static" 102 .int16 .big "Total Static Applied",
  fld "lag_time_a" 104 .int16 .big "Lag Time A",
  fld "lag_time_b" 106 .int16 .big "Lag Time B",
  fld "delay_rec_time" 108 .int16 .big "Delay Recording Time",
  fld "mute_start" 110 .int16 .big "Start Time of Mute",
  fld "mute_end" 112 .int16 .big "End Time of Mute",
  fld "samples_per_trace" 114 .int16 .big "Number of Samples in this Trace",
  fld "sample_interval" 116 .int16 .big "Sample Interval for this Trace",
  fld "gain_type" 118 .int16 .big "Gain Type of Field Instruments",
  fld "instrument_gain" 120 .int16 .big "Instrument Gain Constant",
  fld "instrument_early_gain" 122 .int16 .big "Instrument Early Gain",
  fld "correlated" 124 .int16 .big "Correlated",
  fld "sweep_freq_start" 126 .int16 .big "Sweep Frequency at Start",
  fld "sweep_freq_end" 128 .int16 .big "Sweep Frequency at End",
  fld "sweep_length" 130 .int16 .big "Sweep Length",
  fld "sweep_type" 132 .int16 .big "Sweep Type",
  fld "sweep_trace_taper_start" 134 .int16 .big "Sweep Trace Taper Length at Start",
  fld "sweep_trace_taper_end" 136 .int16 .big "Sweep Trace Taper Length at End",
  fld "taper_type" 138 .int16 .big "Taper Type",
  fld "alias_filter_freq" 140 .int16 .big "Alias Filter Frequency",
  fld "alias_filter_slope" 142 .int16 .big "Alias Filter Slope",
  fld "notch_filter_freq" 144 .int16 .big "Notch Filter Frequency",
  fld "notch_filter_slope" 146 .int16 .big "Notch Filter Slope",
  fld "low_cut_freq" 148 .int16 .big "Low Cut Frequency",
  fld "high_cut_freq" 150 .int16 .big "High Cut Frequency",
  fld "low_cut_slope" 152 .int16 .big "Low Cut Slope",
  fld "high_cut_slope" 154 .int16 .big "High Cut Slope",
  fld "year" 156 .int16 .big "Year Data Recorded",
  fld "day" 158 .int16 .big "Day of Year",
  fld "hour" 160 .int16 .big "Hour of Day",
  fld "minute" 162 .int16 .big "Minute of Hour",
  fld "second" 164 .int16 .big "Second of Minute",
  fld "time_basis_code" 166 .int16 .big "Time Basis Code",
  fld "trace_weighting_factor" 168 .int16 .big "Trace Weighting Factor",
  fld "geophone_group_no_roll1" 170 .int16 .big "Geophone Group Number of Roll Switch Position One",
  fld "geophone_group_no_first_trace" 172 .int16 .big "Geophone Group Number of Trace Number One within Original Field Record",
  fld "geophone_group_no_last_trace" 174 .int16 .big "Geophone Group Number of Last Trace within Original Field Record",
  fld "gap_size" 176 .int16 .big "Gap Size (total number of groups dropped)",
  fld "over_travel" 178 .int16 .big "Over Travel Associated with Taper"
]

/-- `rev0_textual_file_header` from `rev0.py`. -/
def rev0_textual_file_header : TextHeaderDescriptor :=
  { rows := 40, cols := 80, offset := 0, encoding := .ebcdic, format := .uint8 }

/-- `rev0_binary_file_header` from `rev0.py`. -/
def rev0_binary_file_header : StructuredDataTypeDescriptor :=
  { fields := BINARY_FILE_HEADER_FIELDS_REV0, itemSize := 400, offset := some 3200 }

/-- `rev0_trace_header` from `rev0.py`. -/
def rev0_trace_header : StructuredDataTypeDescriptor :=
  { fields := TRACE_HEADER_FIELDS_REV0, itemSize := 240 }

/-- `rev0_trace_data` from `rev0.py` (sample count specialized later). -/
def rev0_trace_data : TraceDataDescriptor :=
  { format := .ibm32, endianness := .big }

/-- `rev0_trace` from `rev0.py`. -/
def rev0_trace : TraceDescriptor :=
  { headerDescriptor := rev0_trace_header, dataDescriptor := rev0_trace_data }

/-- `rev0_segy` from `rev0.py`. -/
def rev0_segy : SegyDescriptor :=
  { segyStandard := .rev0
    textFileHeader := rev0_textual_file_header
    binaryFileHeader := rev0_binary_file_header
    trace := rev0_trace }

/-- Layout check used for claim C8: the fields tile the record
contiguously, each starting where the previous one ended. -/
def contiguousFrom : Nat → List StructuredFieldDescriptor → Bool
  | _, [] => true
  | o, f :: fs => f.offset == o && contiguousFrom (o + f.format.width) fs

/-! ### Bounds checking, slices and `__getitem__`
(`src/segy/indexing.py`, lines 86-181) -/

/-- The data carried by the `IndexError` raised by `bounds_check`
(`indexing.py` lines 100-111): the outlier indices, the trace count
quoted in the message, and the half-open range the message prints,
which is literally `[0, max_ - 1)`. -/
structure BoundsError where
  outliers : List Int
  numTraces : Int
  validLo : Int
  validHiExclusive : Int
deriving DecidableEq, Repr

/-- `bounds_check(indices, max_, type_)` from `indexing.py` lines 86-111:
collects negative indices and indices `>= max_`; raises when the
concatenation is non-empty, quoting the outliers and the (mis-stated)
valid range `[0, max_ - 1)`. `none` means no exception. -/
def boundsCheck (indices : List Int) (maxV : Int) : Option BoundsError :=
  let negativeIndices := indices.filter (fun i => i < 0)
  let outOfRangeIndices := indices.filter (fun i => maxV ≤ i)
  let outliers := negativeIndices ++ outOfRangeIndices
  if outliers.isEmpty then none
  else some ⟨outliers, maxV, 0, maxV - 1⟩

/-- A Python `slice(start, stop, step)` object; `none` is Python `None`. -/
structure PySlice where
  start : Option Int
  stop : Option Int
  step : Option Int
deriving DecidableEq, Repr

/-- Python truthiness-based defaulting: `x or d` yields `d` when `x` is
`None` or `0` (used by `__getitem__` lines 170-171). -/
def pyOr (x : Option Int) (d : Int) : Int :=
  match x with
  | none => d
  | some v => if v = 0 then d else v

/-- Python `range(start, stop, step)` as a list (`step ≠ 0`). -/
def pyRange (start stop step : Int) : List Int :=
  let len : Int :=
    if 0 < step then max 0 ((stop - start + step - 1).fdiv step)
    else max 0 ((start - stop + (-step) - 1).fdiv (-step))
  (List.range len.toNat).map (fun k => start + step * k)

/-- CPython `slice.indices(length)` adjustment of one endpoint. -/
def pyAdjustIndex (v : Int) (length lower upper : Int) : Int :=
  if v < 0 then max (v + length) lower else min v upper

/-- CPython `slice.indices(length)` for `step ≠ 0`, then `range(...)` as
used in `__getitem__` line 174. -/
def pySliceIndices (sl : PySlice) (length : Int) : List Int :=
  let step := sl.step.getD 1
  let lower : Int := if step < 0 then -1 else 0
  let upper : Int := if step < 0 then length - 1 else length
  let start :=
    match sl.start with
    | none => if step < 0 then upper else lower
    | some v => pyAdjustIndex v length lower upper
  let stop :=
    match sl.stop with
    | none => if step < 0 then lower else upper
    | some v => pyAdjustIndex v length lower upper
  pyRange start stop step

/-- The argument of `AbstractIndexer.__getitem__`: an `int`, a `list`, a
`slice`, or a value of any other type (carrying that type's name). -/
inductive Item where
  | int (v : Int)
  | list (vs : List Int)
  | slc (sl : PySlice)
  | other (typeName : String)
deriving DecidableEq, Repr

/-- The exceptions `__getitem__` can raise: `TypeError` (naming the
invalid type), `IndexError` from `bounds_check`, and the `ValueError`
for a slice step of 0. -/
inductive GetItemError where
  | typeErr (typeName : String)
  | outOfBounds (e : BoundsError)
  | badSlice
deriving DecidableEq, Repr

/-- `AbstractIndexer.__getitem__` from `indexing.py` lines 155-181, up to
but not including the fetch: returns the bounds-checked list of indices
that is subsequently passed to `fetch`, or the raised exception.  For a
slice, a step of 0 raises first; then `start = item.start or 0` and
`stop = item.stop or self.max_value` are computed, `[start, stop - 1]`
is bounds-checked, and the indices are `range(*item.indices(max_value))`.
For any other type a `TypeError` naming the type is raised — in the
source this happens before `indices_to_byte_ranges` or `fetch` run. -/
def getitem (maxValue : Int) : Item → Except GetItemError (List Int)
  | .int v =>
    match boundsCheck [v] maxValue with
    | some e => .error (.outOfBounds e)
    | none => .ok [v]
  | .list vs =>
    match boundsCheck vs maxValue with
    | some e => .error (.outOfBounds e)
    | none => .ok vs
  | .slc sl =>
    if sl.step = some 0 then .error .badSlice
    else
      let start := pyOr sl.start 0
      let stop := pyOr sl.stop maxValue
      match boundsCheck [start, stop - 1] maxValue with
      | some e => .error (.outOfBounds e)
      | none => .ok (pySliceIndices sl maxValue)
  | .other typeName => .error (.typeErr typeName)

/-! ### Byte-range planning (`indexing.py` lines 218-226, 261-271, 301-312) -/

/-- `TraceIndexer.indices_to_byte_ranges` (lines 218-226): full records,
`starts = offset + i * trace_itemsize`, `ends = start + trace_itemsize`. -/
def traceIndicesToByteRanges (td : TraceDescriptor) (indices : List Nat) :
    List Nat × List Nat :=
  let startOffset := td.offset
  let traceItemsize := td.dtypeItemsize
  let starts := indices.map (fun i => startOffset + i * traceItemsize)
  let ends := starts.map (fun start => start + traceItemsize)
  (starts, ends)

/-- `HeaderIndexer.indices_to_byte_ranges` (lines 261-271): header-only,
same starts, `ends = start + header_itemsize`. -/
def headerIndicesToByteRanges (td : TraceDescriptor) (indices : List Nat) :
    List Nat × List Nat :=
  let traceItemsize := td.dtypeItemsize
  let headerItemsize := td.headerDescriptor.itemSize
  let startOffset := td.offset
  let starts := indices.map (fun i => startOffset + i * traceItemsize)
  let ends := starts.map (fun start => start + headerItemsize)
  (starts, ends)

/-- `DataIndexer.indices_to_byte_ranges` (lines 301-312): data-only,
`start_offset = offset + header_itemsize`, `ends = start + data_itemsize`. -/
def dataIndicesToByteRanges (td : TraceDescriptor) (indices : List Nat) :
    List Nat × List Nat :=
  let traceItemsize := td.dtypeItemsize
  let dataItemsize := td.dataDescriptor.itemSize
  let headerItemsize := td.headerDescriptor.itemSize
  let startOffset := td.offset + headerItemsize
  let starts := indices.map (fun i => startOffset + i * traceItemsize)
  let ends := starts.map (fun start => start + dataItemsize)
  (starts, ends)

/-! ### Range merging and fetching (`indexing.py` lines 47-83, 187-205)

The file is modelled as a total function from byte address to byte
value.  `fsspec.utils.merge_offset_ranges` is external to the
repository; it is modelled from spec §4.4: sort ranges by start, then
merge consecutive ranges that overlap or touch (gap ≤ 0 — `merge_cat_file`
passes no `max_gap`, so only adjacent/overlapping ranges merge), keeping
every merged span within `max_block`. -/

/-- Bytes of the half-open range `[s, e)` of a file. -/
def rangeBytes (file : Nat → Nat) (s e : Nat) : List Nat :=
  (List.range (e - s)).map (fun j => file (s + j))

/-- Concatenated bytes of a list of ranges, in list order (models
`b"".join(fs.cat_ranges(...))`). -/
def catRanges (file : Nat → Nat) (rs : List (Nat × Nat)) : List Nat :=
  (rs.map (fun r => rangeBytes file r.1 r.2)).flatten

/-- Insertion into a start-sorted range list. -/
def insertRange (r : Nat × Nat) : List (Nat × Nat) → List (Nat × Nat)
  | [] => [r]
  | q :: qs => if r.1 ≤ q.1 then r :: q :: qs else q :: insertRange r qs

/-- Modelled from the spec: the `sort=True` pass of
`fsspec.utils.merge_offset_ranges` — sort the ranges by start (§4.4
"sorts by start"). -/
def sortRanges (rs : List (Nat × Nat)) : List (Nat × Nat) :=
  rs.foldr insertRange []

/-- Merging loop over start-sorted ranges, carrying the current block. -/
def mergeLoop (maxBlock : Nat) (cur : Nat × Nat) :
    List (Nat × Nat) → List (Nat × Nat)
  | [] => [cur]
  | r :: rs =>
    if r.1 ≤ cur.2 ∧ max cur.2 r.2 - cur.1 ≤ maxBlock then
      mergeLoop maxBlock (cur.1, max cur.2 r.2) rs
    else
      cur :: mergeLoop maxBlock r rs

/-- Modelled from the spec: the merging pass of
`fsspec.utils.merge_offset_ranges` (§4.4) — merge consecutive sorted
ranges whose gap is ≤ 0, bounding every merged span by `max_block`. -/
def mergeRanges (maxBlock : Nat) : List (Nat × Nat) → List (Nat × Nat)
  | [] => []
  | r :: rs => mergeLoop maxBlock r rs

/-- `merge_cat_file(fs, url, starts, ends, block_size)` from
`indexing.py` lines 47-83: merge the sorted ranges (default block size
8 MiB = 8388608), fetch each merged range, and concatenate the returned
byte strings in order. -/
def merge_cat_file (file : Nat → Nat) (starts ends : List Nat)
    (blockSize : Nat := 8388608) : List Nat :=
  catRanges file (mergeRanges blockSize (sortRanges (starts.zip ends)))

/-- Fixed-width record chunking with explicit fuel, modelling
`np.frombuffer(buffer, dtype)`: the buffer is cut into consecutive
records of `w` bytes. -/
def chunksAux (w : Nat) : Nat → List Nat → List (List Nat)
  | 0, _ => []
  | _ + 1, [] => []
  | fuel + 1, l => l.take w :: chunksAux w fuel (l.drop w)

/-- Cut a buffer into consecutive records of `w` bytes each
(`np.frombuffer` view of the buffer under a `w`-byte dtype). -/
def chunks (w : Nat) (l : List Nat) : List (List Nat) :=
  chunksAux w l.length l

/-- Result of `fetch`: `numpy`'s `.squeeze()` (line 205) collapses a
length-1 record array to a bare 0-d record. -/
inductive FetchResult where
  | one (record : List Nat)
  | many (records : List (List Nat))
deriving DecidableEq, Repr

/-- `.squeeze()` on a record array (`indexing.py` line 205). -/
def squeeze : List (List Nat) → FetchResult
  | [record] => .one record
  | records => .many records

/-- `AbstractIndexer.fetch(indices)` from `indexing.py` lines 187-205,
specialized to `TraceIndexer`: compute byte ranges, merge-and-fetch into
one buffer, cut the buffer into trace-sized records, squeeze.  The
per-record numeric decode (endian swap, IBM conversion) acts
elementwise on each record and is modelled separately
(`trace_ibm2ieee_inplace`); here records are their raw bytes. -/
def fetch (td : TraceDescriptor) (file : Nat → Nat) (indices : List Nat)
    (blockSize : Nat := 8388608) : FetchResult :=
  let (starts, ends) := traceIndicesToByteRanges td indices
  let buffer := merge_cat_file file starts ends blockSize
  squeeze (chunks td.dtypeItemsize buffer)

/-- The raw bytes of trace `i` in the file: the `dtype.itemsize`-wide
record at `offset + i * dtype.itemsize`. -/
def traceBytes (td : TraceDescriptor) (file : Nat → Nat) (i : Nat) : List Nat :=
  rangeBytes file (td.offset + i * td.dtypeItemsize)
    (td.offset + i * td.dtypeItemsize + td.dtypeItemsize)

/-! ### In-place IBM→IEEE trace conversion (`indexing.py` lines 21-44) -/

/-- One element of a numpy structured trace array with fields `header`
and `data`: header bytes and 32-bit data sample words. -/
structure TraceArrayRecord where
  header : List Nat
  data : List Nat
deriving DecidableEq, Repr

/-- The numpy dtype of a trace record: an opaque header block and
`samples` scalars of `dataFormat` (modelled from the spec, §3/§4.1: the
record is the header block followed by the sample block). -/
structure TraceRecDtype where
  headerSize : Nat
  dataFormat : ScalarType
  samples : Nat
deriving DecidableEq, Repr

/-- Total byte width of a `TraceRecDtype` (numpy `dtype.itemsize`). -/
def TraceRecDtype.itemsize (d : TraceRecDtype) : Nat :=
  d.headerSize + d.samples * d.dataFormat.width

/-- `trace_ibm2ieee_inplace(trace)` from `indexing.py` lines 21-44,
value level: `trace["data"] = ibm2ieee(trace["data"]).view("uint32")`
converts every data word in place and leaves the header untouched. -/
def trace_ibm2ieee_inplace (tr : TraceArrayRecord) : TraceArrayRecord :=
  { header := tr.header, data := tr.data.map ibm2ieee }

/-- `trace_ibm2ieee_inplace`, dtype level (`indexing.py` lines 35-41):
`trace_dtype_fp32 = np.dtype([("header", header_dtype),
("data", ("float32", num_samp))])` — the header sub-dtype is kept and
the data sub-dtype is re-typed to `float32` with the same shape. -/
def traceDtypeFp32 (d : TraceRecDtype) : TraceRecDtype :=
  { headerSize := d.headerSize, dataFormat := .float32, samples := d.samples }

/-! ### Standards registry (`src/segy/standards/registry.py`)

`register_spec` stores a descriptor under a standard; `get_spec` returns
`registry[key].model_copy(deep=True)`.  Python object identity is
modelled with an explicit heap: addresses are naturals, the pydantic
deep copy (whose implementation is outside the repository) is modelled
from the spec (§4.3 "returns a deep copy") as a fresh allocation holding
an equal value. -/

structure RegistryState where
  store : Nat → SegyDescriptor
  next : Nat
  registry : SegyStandard → Option Nat

/-- `register_spec(spec_type, spec)` from `registry.py` lines 14-16:
store the descriptor (at a fresh address) under the standard. -/
def register_spec (st : RegistryState) (k : SegyStandard) (v : SegyDescriptor) :
    RegistryState :=
  { store := fun n => if n = st.next then v else st.store n
    next := st.next + 1
    registry := fun q => if q = k then some st.next else st.registry q }

/-- `get_spec(spec_type)` from `registry.py` lines 19-31: `None` lookup
raises `NotImplementedError`; otherwise return
`spec.model_copy(deep=True)`, modelled as a fresh address holding an
equal value. -/
def get_spec (st : RegistryState) (k : SegyStandard) :
    Option (RegistryState × Nat) :=
  match st.registry k with
  | none => none
  | some a =>
    some ({ st with
              store := fun n => if n = st.next then st.store a else st.store n
              next := st.next + 1 },
          st.next)

/-- Caller-side mutation of the descriptor object at address `a`. -/
def mutateAt (st : RegistryState) (a : Nat) (f : SegyDescriptor → SegyDescriptor) :
    RegistryState :=
  { st with store := fun n => if n = a then f (st.store n) else st.store n }

/-! ### Concrete instances used by witnesses and counterexamples -/

/-- A small concrete trace descriptor: 4-byte header, 6 one-byte samples,
trace section at offset 0, so the record stride is 10 bytes. -/
def tdSmall : TraceDescriptor :=
  { headerDescriptor := { fields := [], itemSize := 4 }
    dataDescriptor := { format := .uint8, endianness := .big, samples := 6 }
    offset := 0 }

/-- A concrete file: byte at address `a` is `a % 256`. -/
def fileSmall : Nat → Nat := fun a => a % 256

/-- A concrete starting registry state: empty registry, empty heap. -/
def regStateC : RegistryState :=
  ⟨fun _ => rev0_segy, 0, fun _ => none⟩

/-- State after registering the Rev0 descriptor. -/
def regStateC1 : RegistryState := register_spec regStateC .rev0 rev0_segy

/-- State and address produced by the first `get_spec` call. -/
def regStateC2 : RegistryState :=
  { regStateC1 with
      store := fun n => if n = regStateC1.next then regStateC1.store 0 else regStateC1.store n
      next := regStateC1.next + 1 }

/-- A caller-side mutation: stamp the descriptor as custom. -/
def gC : SegyDescriptor → SegyDescriptor :=
  fun d => { d with segyStandard := .custom }

/-- State after the caller mutates the copy returned by `get_spec`. -/
def regStateC3 : RegistryState := mutateAt regStateC2 1 gC

/-- State produced by the second `get_spec` call. -/
def regStateC4 : RegistryState :=
  { regStateC3 with
      store := fun n => if n = regStateC3.next then regStateC3.store 0 else regStateC3.store n
      next := regStateC3.next + 1 }

/-! ## Theorems -/

/-- Claim C1: for every position `k` of an index list, the planned byte
range of trace `i = I[k]` is `[offset + i*stride, offset + i*stride +
stride)` for the full-trace indexer, `[offset + i*stride, offset +
i*stride + header_size)` for the header-only indexer, and `[offset +
i*stride + header_size, offset + i*stride + stride)` for the data-only
indexer, where `stride = header_size + data_size`. -/
theorem indexer_byte_ranges (td : TraceDescriptor) (I : List Nat)
    (k : Nat) (hk : k < I.length) :
    (traceIndicesToByteRanges td I).1[k]? =
      some (td.offset + I[k] * (td.headerDescriptor.itemSize + td.dataDescriptor.itemSize))
  ∧ (traceIndicesToByteRanges td I).2[k]? =
      some (td.offset + I[k] * (td.headerDescriptor.itemSize + td.dataDescriptor.itemSize)
            + (td.headerDescriptor.itemSize + td.dataDescriptor.itemSize))
  ∧ (headerIndicesToByteRanges td I).1[k]? =
      some (td.offset + I[k] * (td.headerDescriptor.itemSize + td.dataDescriptor.itemSize))
  ∧ (headerIndicesToByteRanges td I).2[k]? =
      some (td.offset + I[k] * (td.headerDescriptor.itemSize + td.dataDescriptor.itemSize)
            + td.headerDescriptor.itemSize)
  ∧ (dataIndicesToByteRanges td I).1[k]? =
      some (td.offset + I[k] * (td.headerDescriptor.itemSize + td.dataDescriptor.itemSize)
            + td.headerDescriptor.itemSize)
  ∧ (dataIndicesToByteRanges td I).2[k]? =
      some (td.offset + I[k] * (td.headerDescriptor.itemSize + td.dataDescriptor.itemSize)
            + (td.headerDescriptor.itemSize + td.dataDescriptor.itemSize)) := by
  refine ⟨?_, ?_, ?_, ?_, ?_, ?_⟩ <;>
    simp [traceIndicesToByteRanges, headerIndicesToByteRanges,
      dataIndicesToByteRanges, TraceDescriptor.dtypeItemsize,
      List.getElem?_map, List.getElem?_eq_getElem hk] <;>
    ring

/-- Witness for C1 at a concrete descriptor and index list. -/
theorem indexer_byte_ranges_witness :
    (0 : Nat) < [3].length
  ∧ (SegyVerify.traceIndicesToByteRanges SegyVerify.tdSmall [3]).1[0]? = some 30 :=
  ⟨by decide, (SegyVerify.indexer_byte_ranges SegyVerify.tdSmall [3] 0 (by decide)).1⟩

/-- Claim C5: on an `ibm32` trace record, the in-place conversion leaves
every header byte unchanged, maps exactly the data words through
`ibm2ieee`, and the returned record's dtype has a `float32` data
sub-field with an unchanged total byte width. -/
theorem inplace_conversion_frame (tr : TraceArrayRecord) (d : TraceRecDtype)
    (h : d.dataFormat = .ibm32) :
    (trace_ibm2ieee_inplace tr).header = tr.header
  ∧ (trace_ibm2ieee_inplace tr).data = tr.data.map ibm2ieee
  ∧ (traceDtypeFp32 d).dataFormat = .float32
  ∧ (traceDtypeFp32 d).itemsize = d.itemsize := by
  refine ⟨rfl, rfl, rfl, ?_⟩
  simp [TraceRecDtype.itemsize, traceDtypeFp32, h, ScalarType.width]

/-- Witness for C5 at a concrete record and dtype. -/
theorem inplace_conversion_frame_witness :
    SegyVerify.TraceRecDtype.dataFormat ⟨240, .ibm32, 1⟩ = .ibm32
  ∧ (SegyVerify.trace_ibm2ieee_inplace ⟨[1, 2], [0x41100000]⟩).header = [1, 2] :=
  ⟨rfl, (SegyVerify.inplace_conversion_frame ⟨[1, 2], [0x41100000]⟩ ⟨240, .ibm32, 1⟩ rfl).1⟩

/-- Claim C7: the Rev0 binary file header descriptor has `item_size`
400 and a field `sample_interval` at offset 16 of type int16 big-endian;
the Rev0 trace header descriptor has `item_size` 240 and a field
`src_x` at offset 72 of type int32 big-endian. -/
theorem rev0_header_spot_checks :
    rev0_binary_file_header.itemSize = 400
  ∧ (rev0_binary_file_header.fields[5]?).map
      (fun f => (f.name, f.offset, f.format, f.endianness)) =
      some ("sample_interval", 16, .int16, .big)
  ∧ rev0_trace_header.itemSize = 240
  ∧ (rev0_trace_header.fields[21]?).map
      (fun f => (f.name, f.offset, f.format, f.endianness)) =
      some ("src_x", 72, .int32, .big) :=
  ⟨rfl, rfl, rfl, rfl⟩

/-- Counterexample for C8 as stated: the Rev0 table defines 27 binary
file header fields, not 28. -/
theorem rev0_binary_field_count_not_28 :
    BINARY_FILE_HEADER_FIELDS_REV0.length ≠ 28 := by
  decide

set_option maxRecDepth 8000 in
/-- Claim C8 (amended): the Rev0 descriptor defines exactly 27 binary
file header fields and 71 trace header fields; each list tiles its
record contiguously and without overlap from offset 0, the binary
fields covering bytes [0, 60) and the trace fields bytes [0, 180). -/
theorem rev0_field_tables :
    BINARY_FILE_HEADER_FIELDS_REV0.length = 27
  ∧ TRACE_HEADER_FIELDS_REV0.length = 71
  ∧ contiguousFrom 0 BINARY_FILE_HEADER_FIELDS_REV0 = true
  ∧ contiguousFrom 0 TRACE_HEADER_FIELDS_REV0 = true
  ∧ (BINARY_FILE_HEADER_FIELDS_REV0.map
      (fun f => f.offset + f.format.width)).foldr max 0 = 60
  ∧ (TRACE_HEADER_FIELDS_REV0.map
      (fun f => f.offset + f.format.width)).foldr max 0 = 180 := by
  refine ⟨rfl, rfl, by decide, by decide, by decide, by decide⟩

/-- Claim C10: indexing with anything that is not an int, a list, or a
slice raises a `TypeError` naming the invalid type; in the source this
raise happens before `indices_to_byte_ranges` or `fetch` run, so no
byte ranges are computed or fetched. -/
theorem getitem_other_type_error (maxValue : Int) (t : String) :
    getitem maxValue (.other t) = .error (.typeErr t) :=
  rfl

/-- `bounds_check` raises exactly when some index is negative or at
least `max_`. -/
theorem boundsCheck_isSome_iff (indices : List Int) (maxV : Int) :
    (boundsCheck indices maxV).isSome ↔ ∃ i ∈ indices, i < 0 ∨ maxV ≤ i := by
  simp only [boundsCheck]
  split
  · rename_i h
    simp only [List.isEmpty_eq_true, List.append_eq_nil, List.filter_eq_nil_iff,
      decide_eq_true_eq] at h
    simp only [Option.isSome_none, Bool.false_eq_true, false_iff]
    rintro ⟨i, hi, hv | hv⟩
    · exact h.1 i hi hv
    · exact h.2 i hi hv
  · rename_i h
    simp only [Option.isSome_some, true_iff]
    rcases hne : indices.filter (fun i => decide (i < 0)) with _ | ⟨a, tl⟩
    · rcases hne2 : indices.filter (fun i => decide (maxV ≤ i)) with _ | ⟨b, tl2⟩
      · exact absurd (by simp [hne, hne2]) h
      · have hb := List.mem_filter.mp (hne2 ▸ List.mem_cons_self b tl2)
        exact ⟨b, hb.1, Or.inr (by simpa using hb.2)⟩
    · have ha := List.mem_filter.mp (hne ▸ List.mem_cons_self a tl)
      exact ⟨a, ha.1, Or.inl (by simpa using ha.2)⟩

/-- The outliers carried by a raised `bounds_check` error are exactly
the violating indices. -/
theorem boundsCheck_outliers_mem (indices : List Int) (maxV i : Int) :
    (∃ e, boundsCheck indices maxV = some e ∧ i ∈ e.outliers) ↔
      i ∈ indices ∧ (i < 0 ∨ maxV ≤ i) := by
  simp only [boundsCheck]
  split
  · rename_i h
    simp only [List.isEmpty_eq_true, List.append_eq_nil, List.filter_eq_nil_iff,
      decide_eq_true_eq] at h
    constructor
    · rintro ⟨e, he, _⟩; exact Option.noConfusion he
    · rintro ⟨hi, hv | hv⟩
      · exact absurd hv (h.1 i hi)
      · exact absurd hv (h.2 i hi)
  · constructor
    · rintro ⟨e, he, hmem⟩
      obtain rfl : _ = e := Option.some.inj he
      simp only [List.mem_append, List.mem_filter, decide_eq_true_eq] at hmem
      rcases hmem with ⟨hi, hv⟩ | ⟨hi, hv⟩
      · exact ⟨hi, Or.inl hv⟩
      · exact ⟨hi, Or.inr hv⟩
    · rintro ⟨hi, hv⟩
      refine ⟨_, rfl, ?_⟩
      simp only [List.mem_append, List.mem_filter, decide_eq_true_eq]
      rcases hv with hv | hv
      · exact Or.inl ⟨hi, hv⟩
      · exact Or.inr ⟨hi, hv⟩

/-- Claim C3 (documents the code bug): `bounds_check` raises if and only
if some index is negative or `≥ trace_count` (wraparound is never
applied), and the error carries exactly the violating indices — but the
error message mis-states the valid range: with 10 traces it prints
`[0, 9)` (that is, `[0, max_ - 1)`) although index 9 passes the check,
where the spec requires `[0, 10)`. -/
theorem bounds_check_behavior :
    (∀ (indices : List Int) (maxV : Int),
        (boundsCheck indices maxV).isSome ↔ ∃ i ∈ indices, i < 0 ∨ maxV ≤ i)
  ∧ (∀ (indices : List Int) (maxV i : Int),
        (∃ e, boundsCheck indices maxV = some e ∧ i ∈ e.outliers) ↔
          i ∈ indices ∧ (i < 0 ∨ maxV ≤ i))
  ∧ (boundsCheck [(10 : Int)] 10).map BoundsError.validHiExclusive = some 9
  ∧ (boundsCheck [(10 : Int)] 10).map BoundsError.validHiExclusive ≠ some 10
  ∧ boundsCheck [(9 : Int)] 10 = none :=
  ⟨boundsCheck_isSome_iff, boundsCheck_outliers_mem, by decide, by decide, by decide⟩

/-- Counterexample for C4 as stated: for the slice `[:0]` (explicit
`stop = 0`) over 5 traces, the code bounds-checks `trace_count - 1`
rather than `stop - 1 = -1` (Python's `stop or max_value` treats the
explicit 0 as falsy), so the call succeeds with no `OutOfBounds` even
though `stop - 1` is out of bounds. -/
theorem slice_stop_zero_counterexample :
    getitem 5 (.slc ⟨none, some 0, none⟩) = .ok []
  ∧ (boundsCheck [(0 : Int), (0 : Int) - 1] 5).isSome := by
  constructor
  · rfl
  · decide

/-- Claim C4 (amended): a slice step of 0 raises `BadSlice`; for any
other slice, a start that is omitted (or given as 0) is replaced by 0, a
stop that is omitted (or given as 0) is replaced by `trace_count`, and
`OutOfBounds` is raised exactly when the replaced start or the replaced
stop minus 1 falls outside `[0, trace_count)`. -/
theorem slice_getitem_handling (maxV : Int) (sl : PySlice) :
    (sl.step = some 0 → getitem maxV (.slc sl) = .error .badSlice)
  ∧ (sl.step ≠ some 0 →
      (sl.start = none → pyOr sl.start 0 = 0)
      ∧ (sl.stop = none → pyOr sl.stop maxV = maxV)
      ∧ ((∃ e, getitem maxV (.slc sl) = .error (.outOfBounds e)) ↔
          (pyOr sl.start 0 < 0 ∨ maxV ≤ pyOr sl.start 0
            ∨ pyOr sl.stop maxV - 1 < 0 ∨ maxV ≤ pyOr sl.stop maxV - 1))) := by
  constructor
  · intro h
    simp [getitem, h]
  · intro hstep
    refine ⟨fun h => by simp [pyOr, h], fun h => by simp [pyOr, h], ?_⟩
    have hgi : getitem maxV (.slc sl) =
        match boundsCheck [pyOr sl.start 0, pyOr sl.stop maxV - 1] maxV with
        | some e => .error (.outOfBounds e)
        | none => .ok (pySliceIndices sl maxV) := by
      simp [getitem, hstep]
    rcases hbc : boundsCheck [pyOr sl.start 0, pyOr sl.stop maxV - 1] maxV with _ | e
    · rw [hgi, hbc]
      have hno : ¬ ∃ i ∈ [pyOr sl.start 0, pyOr sl.stop maxV - 1],
          i < 0 ∨ maxV ≤ i := by
        rw [← boundsCheck_isSome_iff, hbc]
        simp
      simp only [List.mem_cons, List.mem_singleton] at hno
      push_neg at hno
      constructor
      · rintro ⟨e, he⟩; exact Except.noConfusion he
      · intro hv
        exfalso
        have h1 := hno (pyOr sl.start 0) (Or.inl rfl)
        have h2 := hno (pyOr sl.stop maxV - 1) (Or.inr (by simp))
        rcases hv with h | h | h | h <;> omega
    · rw [hgi, hbc]
      have hyes : ∃ i ∈ [pyOr sl.start 0, pyOr sl.stop maxV - 1],
          i < 0 ∨ maxV ≤ i := by
        rw [← boundsCheck_isSome_iff, hbc]; simp
      constructor
      · intro _
        simp only [List.mem_cons, List.not_mem_nil, or_false] at hyes
        obtain ⟨i, hi, hv⟩ := hyes
        rcases hi with rfl | rfl
        · rcases hv with h | h
          · exact Or.inl h
          · exact Or.inr (Or.inl h)
        · rcases hv with h | h
          · exact Or.inr (Or.inr (Or.inl h))
          · exact Or.inr (Or.inr (Or.inr h))
      · intro _
        exact ⟨e, rfl⟩

/-- Counterexample for C6 as stated: the IBM word `0x42080000` (sign 0,
excess-64 exponent 0x42, fraction 0x080000) decodes to 8.0, not 0.5. -/
theorem ibm_42080000_not_half :
    ieee32Value (ibm2ieee 0x42080000) ≠ (1 / 2 : ℚ) := by
  have h : ibm2ieee 0x42080000 = 0x41000000 := by decide
  rw [h]
  norm_num [ieee32Value]

/-- Claim C6 (amended): the conversion maps `0x42080000` to 8.0,
`0xC2080000` to -8.0, `0x00000000` to 0.0 and `0x41100000` to 1.0; and
every 32-bit word with all 24 fraction bits zero decodes to ±0.0 whose
sign is bit 31. -/
theorem ibm2ieee_reference_values :
    ieee32Value (ibm2ieee 0x42080000) = 8
  ∧ ieee32Value (ibm2ieee 0xC2080000) = -8
  ∧ ieee32Value (ibm2ieee 0x00000000) = 0
  ∧ ieee32Value (ibm2ieee 0x41100000) = 1
  ∧ ∀ w : Nat, w < 2 ^ 32 → w % 2 ^ 24 = 0 →
      ibm2ieee w = w / 2 ^ 31 % 2 * 2 ^ 31 ∧ ieee32Value (ibm2ieee w) = 0 := by
  have h1 : ibm2ieee 0x42080000 = 0x41000000 := by decide
  have h2 : ibm2ieee 0xC2080000 = 0xC1000000 := by decide
  have h3 : ibm2ieee 0x41100000 = 0x3F800000 := by decide
  have h0 : ibm2ieee 0x00000000 = 0 := by decide
  refine ⟨by rw [h1]; norm_num [ieee32Value],
    by rw [h2]; norm_num [ieee32Value],
    by rw [h0]; norm_num [ieee32Value],
    by rw [h3]; norm_num [ieee32Value], ?_⟩
  intro w _ hfrac
  have hfrac' : w % 16777216 = 0 := by norm_num at hfrac; exact hfrac
  have hz : ibm2ieee w = w / 2 ^ 31 % 2 * 2 ^ 31 := by
    simp [ibm2ieee, ibmFraction, ibmSign, hfrac']
  refine ⟨hz, ?_⟩
  rw [hz]
  rcases Nat.mod_two_eq_zero_or_one (w / 2 ^ 31) with h | h <;> rw [h]
  · norm_num [ieee32Value]
  · norm_num [ieee32Value]

/-- Witness for C6's universally quantified part at the word
`0x80000000` (sign bit set, zero fraction): the result is IEEE -0.0. -/
theorem ibm2ieee_neg_zero_witness :
    (0x80000000 : Nat) < 2 ^ 32
  ∧ (0x80000000 : Nat) % 2 ^ 24 = 0
  ∧ ibm2ieee 0x80000000 = 0x80000000 / 2 ^ 31 % 2 * 2 ^ 31
  ∧ ieee32Value (ibm2ieee 0x80000000) = 0 :=
  ⟨by decide, by decide,
    (ibm2ieee_reference_values.2.2.2.2 0x80000000 (by decide) (by decide)).1,
    (ibm2ieee_reference_values.2.2.2.2 0x80000000 (by decide) (by decide)).2⟩

/-- Claim C9: retrieving a registered standard returns a deep copy at a
fresh address holding an equal descriptor; mutating that copy leaves the
registry's stored descriptor unchanged, and a subsequent `get_spec`
still returns the originally registered value.  The lookup in
`get_spec` always succeeds for a registered standard (so the nested
hypotheses below are satisfiable for every input). -/
theorem get_spec_deep_copy (st0 : RegistryState) (k : SegyStandard)
    (v : SegyDescriptor) :
    (register_spec st0 k v).registry k = some st0.next
  ∧ (∃ st2 a2, get_spec (register_spec st0 k v) k = some (st2, a2))
  ∧ ∀ st2 a2, get_spec (register_spec st0 k v) k = some (st2, a2) →
      a2 ≠ st0.next
      ∧ st2.store a2 = v
      ∧ ∀ g : SegyDescriptor → SegyDescriptor,
          (mutateAt st2 a2 g).store st0.next = v
          ∧ ∀ st4 a4, get_spec (mutateAt st2 a2 g) k = some (st4, a4) →
              st4.store a4 = v := by
  have hreg : (register_spec st0 k v).registry k = some st0.next := by
    simp [register_spec]
  refine ⟨hreg, ⟨_, _, by rw [get_spec, hreg]⟩, ?_⟩
  intro st2 a2 h
  rw [get_spec, hreg] at h
  injection h with hp
  injection hp with hs ha
  subst hs
  subst ha
  have hnext : (register_spec st0 k v).next = st0.next + 1 := rfl
  refine ⟨by rw [hnext]; omega, ?_, ?_⟩
  · simp [register_spec]
  · intro g
    constructor
    · show (if st0.next = (register_spec st0 k v).next then _ else _) = v
      rw [if_neg (by rw [hnext]; omega)]
      simp [register_spec]
    · intro st4 a4 h4
      rw [get_spec] at h4
      dsimp only [mutateAt] at h4
      simp only [hreg] at h4
      injection h4 with hp4
      injection hp4 with hs4 ha4
      subst hs4
      subst ha4
      dsimp only [mutateAt, register_spec]
      rw [if_pos rfl]
      rw [if_neg (show ¬ st0.next = st0.next + 1 by omega)]
      rw [if_neg (show ¬ st0.next = st0.next + 1 by omega)]
      rw [if_pos rfl]

/-! ### Lemmas about range merging and record chunking (for claim C2) -/

theorem rangeBytes_length (file : Nat → Nat) (s e : Nat) :
    (rangeBytes file s e).length = e - s := by
  simp [rangeBytes]

theorem rangeBytes_append (file : Nat → Nat) {s m e : Nat}
    (h1 : s ≤ m) (h2 : m ≤ e) :
    rangeBytes file s m ++ rangeBytes file m e = rangeBytes file s e := by
  unfold rangeBytes
  have hsplit : e - s = (m - s) + (e - m) := by omega
  rw [hsplit, List.range_add, List.map_append, List.map_map]
  congr 1
  apply List.map_congr_left
  intro j _
  simp only [Function.comp_apply]
  congr 1
  omega

theorem insertRange_of_le {r q : Nat × Nat} {qs : List (Nat × Nat)}
    (h : r.1 ≤ q.1) : insertRange r (q :: qs) = r :: q :: qs := by
  simp [insertRange, h]

theorem sortRanges_eq_self {rs : List (Nat × Nat)}
    (h : List.Chain' (fun a b => a.1 ≤ b.1) rs) : sortRanges rs = rs := by
  induction rs with
  | nil => rfl
  | cons r rs ih =>
    have htl : sortRanges rs = rs := ih h.tail
    show insertRange r (sortRanges rs) = r :: rs
    rw [htl]
    cases rs with
    | nil => rfl
    | cons q qs =>
      exact insertRange_of_le (List.chain'_cons.mp h).1

theorem catRanges_cons (file : Nat → Nat) (r : Nat × Nat)
    (rs : List (Nat × Nat)) :
    catRanges file (r :: rs) = rangeBytes file r.1 r.2 ++ catRanges file rs := by
  simp [catRanges]

theorem catRanges_mergeLoop (file : Nat → Nat) (B : Nat) :
    ∀ (rs : List (Nat × Nat)) (cur : Nat × Nat),
      cur.1 ≤ cur.2 →
      (∀ r ∈ rs, r.1 ≤ r.2) →
      List.Chain' (fun a b => a.2 ≤ b.1) (cur :: rs) →
      catRanges file (mergeLoop B cur rs) =
        rangeBytes file cur.1 cur.2 ++ catRanges file rs := by
  intro rs
  induction rs with
  | nil =>
    intro cur _ _ _
    simp [mergeLoop, catRanges]
  | cons r rs ih =>
    intro cur hcur hall hchain
    have hgap : cur.2 ≤ r.1 := (List.chain'_cons.mp hchain).1
    have hchain2 : List.Chain' (fun a b => a.2 ≤ b.1) (r :: rs) :=
      (List.chain'_cons.mp hchain).2
    have hre : r.1 ≤ r.2 := hall r (List.mem_cons_self r rs)
    rw [mergeLoop]
    by_cases hc : r.1 ≤ cur.2 ∧ max cur.2 r.2 - cur.1 ≤ B
    · have heq : r.1 = cur.2 := le_antisymm hc.1 hgap
      have hmax : max cur.2 r.2 = r.2 := max_eq_right (heq ▸ hre)
      rw [if_pos hc, hmax]
      have hchain3 : List.Chain' (fun a b => a.2 ≤ b.1) ((cur.1, r.2) :: rs) := by
        cases rs with
        | nil => simp
        | cons q qs =>
          rw [List.chain'_cons]
          exact ⟨(List.chain'_cons.mp hchain2).1, (List.chain'_cons.mp hchain2).2⟩
      rw [ih (cur.1, r.2) (by dsimp only; omega)
        (fun x hx => hall x (List.mem_cons_of_mem r hx)) hchain3]
      rw [catRanges_cons]
      rw [← List.append_assoc]
      congr 1
      rw [heq]
      exact (@rangeBytes_append file cur.1 cur.2 r.2 hcur (heq ▸ hre)).symm
    · rw [if_neg hc, catRanges_cons, catRanges_cons]
      rw [ih r hre (fun x hx => hall x (List.mem_cons_of_mem r hx)) hchain2]

theorem catRanges_mergeRanges (file : Nat → Nat) (B : Nat)
    (rs : List (Nat × Nat)) (hall : ∀ r ∈ rs, r.1 ≤ r.2)
    (hchain : List.Chain' (fun a b => a.2 ≤ b.1) rs) :
    catRanges file (mergeRanges B rs) = catRanges file rs := by
  cases rs with
  | nil => rfl
  | cons r rs =>
    rw [mergeRanges,
      catRanges_mergeLoop file B rs r (hall r (List.mem_cons_self r rs))
        (fun x hx => hall x (List.mem_cons_of_mem r hx)) hchain,
      catRanges_cons]

theorem chunksAux_flatten {w : Nat} (hw : 0 < w) :
    ∀ (blocks : List (List Nat)) (fuel : Nat),
      (∀ b ∈ blocks, b.length = w) →
      blocks.flatten.length ≤ fuel →
      chunksAux w fuel blocks.flatten = blocks := by
  intro blocks
  induction blocks with
  | nil =>
    intro fuel _ _
    cases fuel <;> rfl
  | cons b bs ih =>
    intro fuel hlen hfuel
    have hb : b.length = w := hlen b (List.mem_cons_self b bs)
    have hflat : (b :: bs).flatten = b ++ bs.flatten := rfl
    cases fuel with
    | zero =>
      exfalso
      rw [hflat] at hfuel
      simp only [List.length_append, hb] at hfuel
      omega
    | succ f =>
      have hstep : chunksAux w (f + 1) (b ++ bs.flatten) =
          (b ++ bs.flatten).take w :: chunksAux w f ((b ++ bs.flatten).drop w) := by
        obtain ⟨x, xs, rfl⟩ : ∃ x xs, b = x :: xs := by
          cases b with
          | nil => simp at hb; omega
          | cons x xs => exact ⟨x, xs, rfl⟩
        rfl
      rw [hflat, hstep, List.take_left' hb, List.drop_left' hb]
      congr 1
      apply ih f (fun c hc => hlen c (List.mem_cons_of_mem _ hc))
      rw [hflat] at hfuel
      simp only [List.length_append, hb] at hfuel
      omega

theorem chunks_flatten {w : Nat} (hw : 0 < w) (blocks : List (List Nat))
    (hlen : ∀ b ∈ blocks, b.length = w) :
    chunks w blocks.flatten = blocks :=
  chunksAux_flatten hw blocks blocks.flatten.length hlen (le_refl _)

theorem squeeze_of_ne_one {l : List (List Nat)} (h : l.length ≠ 1) :
    squeeze l = .many l := by
  cases l with
  | nil => rfl
  | cons a l' =>
    cases l' with
    | nil => simp at h
    | cons b l'' => rfl

/-- Counterexample for C2 as stated: with a 10-byte stride and traces at
offset 0, fetching `[1, 0]` returns the records in sorted file order
(trace 0 first), not caller order; and fetching the duplicate list
`[0, 0]` coalesces the two identical ranges into one, returning a single
squeezed record instead of two copies. -/
theorem fetch_unsorted_counterexample :
    fetch tdSmall fileSmall [1, 0] ≠ .many ([1, 0].map (traceBytes tdSmall fileSmall))
  ∧ fetch tdSmall fileSmall [0, 0] ≠ .many ([0, 0].map (traceBytes tdSmall fileSmall)) := by
  decide

/-- Claim C2 (amended): for every strictly increasing list of at least
two trace indices, `fetch` returns an array of `len(I)` records whose
element at position `k` is (the bytes of) trace `I[k]`.  Index lists in
any other order are decoded in sorted file order, duplicates are
coalesced by the range merger rather than honored, and singleton lists
are squeezed to a bare record. -/
theorem fetch_sorted_order (td : TraceDescriptor) (file : Nat → Nat)
    (I : List Nat) (bs : Nat)
    (hstride : 0 < td.dtypeItemsize)
    (hsorted : List.Chain' (· < ·) I)
    (hlen : 2 ≤ I.length) :
    fetch td file I bs = .many (I.map (traceBytes td file)) := by
  have hzip : (traceIndicesToByteRanges td I).1.zip (traceIndicesToByteRanges td I).2 =
      I.map (fun i => (td.offset + i * td.dtypeItemsize,
        td.offset + i * td.dtypeItemsize + td.dtypeItemsize)) := by
    unfold traceIndicesToByteRanges
    dsimp only
    rw [List.map_map]
    exact List.zip_map' _ _ I
  have hall : ∀ r ∈ I.map (fun i => (td.offset + i * td.dtypeItemsize,
      td.offset + i * td.dtypeItemsize + td.dtypeItemsize)), r.1 ≤ r.2 := by
    intro r hr
    obtain ⟨i, _, rfl⟩ := List.mem_map.mp hr
    dsimp only
    omega
  have hchain : List.Chain' (fun a b => a.2 ≤ b.1)
      (I.map (fun i => (td.offset + i * td.dtypeItemsize,
        td.offset + i * td.dtypeItemsize + td.dtypeItemsize))) := by
    rw [List.chain'_map]
    refine List.Chain'.imp ?_ hsorted
    intro a b hab
    dsimp only
    have h1 : (a + 1) * td.dtypeItemsize ≤ b * td.dtypeItemsize :=
      Nat.mul_le_mul_right _ hab
    rw [Nat.succ_mul] at h1
    omega
  have hsortstart : List.Chain' (fun a b => a.1 ≤ b.1)
      (I.map (fun i => (td.offset + i * td.dtypeItemsize,
        td.offset + i * td.dtypeItemsize + td.dtypeItemsize))) := by
    rw [List.chain'_map]
    refine List.Chain'.imp ?_ hsorted
    intro a b hab
    dsimp only
    have h1 : a * td.dtypeItemsize ≤ b * td.dtypeItemsize :=
      Nat.mul_le_mul_right _ (le_of_lt hab)
    omega
  have hfetch : fetch td file I bs =
      squeeze (chunks td.dtypeItemsize
        (merge_cat_file file (traceIndicesToByteRanges td I).1
          (traceIndicesToByteRanges td I).2 bs)) := rfl
  have hbuf : merge_cat_file file (traceIndicesToByteRanges td I).1
      (traceIndicesToByteRanges td I).2 bs =
      (I.map (traceBytes td file)).flatten := by
    unfold merge_cat_file
    rw [hzip, sortRanges_eq_self hsortstart,
      catRanges_mergeRanges file bs _ hall hchain]
    unfold catRanges
    rw [List.map_map]
    rfl
  have hblen : ∀ b ∈ I.map (traceBytes td file), b.length = td.dtypeItemsize := by
    intro b hb
    obtain ⟨i, _, rfl⟩ := List.mem_map.mp hb
    rw [traceBytes, rangeBytes_length]
    omega
  rw [hfetch, hbuf, chunks_flatten hstride _ hblen,
    squeeze_of_ne_one (by rw [List.length_map]; omega)]

/-- Witness for C2's amended theorem at a concrete descriptor, file and
sorted index list. -/
theorem fetch_sorted_order_witness :
    0 < tdSmall.dtypeItemsize
  ∧ List.Chain' (· < ·) [0, 1]
  ∧ 2 ≤ [0, 1].length
  ∧ fetch tdSmall fileSmall [0, 1] =
      .many ([0, 1].map (traceBytes tdSmall fileSmall)) :=
  ⟨by decide, by simp [List.chain'_cons], by decide,
    fetch_sorted_order tdSmall fileSmall [0, 1] 8388608
      (by decide) (by simp [List.chain'_cons]) (by decide)⟩

end SegyVerify
